import Mathlib

/-!
Verification of the connection-retry ("ConnectionSupervisor") logic and the
form-intake endpoint of the firstdubai contact-form backend.

The embedded code:

* `dbConnect` (config/db, `src/unnamed/part_001`): an async retry loop —
  `maxRetries = 5`, `retryInterval = 2000` ms; for `attempt = 1 .. maxRetries`
  it tries `mongoose.connect`; on success it logs and breaks; on failure it
  logs the attempt number and the error message, and if `attempt === maxRetries`
  it logs exhaustion and calls `process.exit(1)`, otherwise it logs, sleeps
  `retryInterval` ms and retries.
* the direct, single-shot `mongoose.connect(...).then(...).catch(err => process.exit(1))`
  used by two `server.js` variants.
* the `/api/send-whatsapp` POST handler of `server.js`: save to MongoDB, append
  to Google Sheets, send the WhatsApp message, in a single try/catch that
  answers 200/`success:true` or 500/`success:false` with the error message.
* the top-level startup order of the `server.js` variant that uses `dbConnect`.

The outcome of each `mongoose.connect` call is an environment parameter
(`env : Nat → AttemptOutcome`, indexed by the attempt number); the loop's
observable behaviour is a trace of events plus a terminal outcome.
-/

/-- Outcome of one underlying `mongoose.connect` call: the promise resolves,
or rejects with an error whose `message` is `msg`. -/
inductive AttemptOutcome where
  | success
  | failure (msg : String)
  deriving DecidableEq

/-- `true` exactly when the outcome is a rejection. -/
def AttemptOutcome.isFailure : AttemptOutcome → Bool
  | .success => false
  | .failure _ => true

/-- `true` exactly when the outcome is a resolution. -/
def AttemptOutcome.isSuccess : AttemptOutcome → Bool
  | .success => true
  | .failure _ => false

/-- Observable events of the embedded code, in program order:
`attemptStart n` marks the `mongoose.connect` call of attempt `n`;
the `…Log` events are the `console.log`/`console.error` calls of `dbConnect`
(`retryingLog` carries the raw interval in ms — the source prints it divided
by 1000); `sleep ms` is the awaited `setTimeout`; `mongoConnectedLog` /
`mongoErrorLog` are the logs of the direct single-shot connect in `server.js`. -/
inductive Event where
  | attemptStart (attempt : Nat)
  | connectedLog
  | attemptFailedLog (attempt : Nat) (msg : String)
  | maxRetriesLog
  | retryingLog (intervalMs : Nat)
  | sleep (ms : Nat)
  | mongoConnectedLog
  | mongoErrorLog (msg : String)
  deriving DecidableEq

/-- How a connect sequence ends: the async function returns (its promise
resolves), or the process exits with the given code. -/
inductive Terminal where
  | returned
  | processExit (code : Nat)
  deriving DecidableEq

/-- The body of `dbConnect`'s `for` loop, transcribed from the source.
`attempt` is the loop variable; `fuel` is the number of loop iterations still
permitted (the `for` loop performs at most `maxRetries` iterations, and
`dbConnectRun` supplies exactly that much fuel, so the fuel never runs out
before the loop condition `attempt ≤ maxRetries` fails).  Each iteration:
on success, log and `break`; on failure, log the attempt and message, then
if `attempt = maxRetries` log exhaustion and `process.exit(1)`, else log,
sleep `D` ms, and continue with `attempt + 1`. -/
def dbConnectLoop (env : Nat → AttemptOutcome) (maxRetries D : Nat) :
    Nat → Nat → List Event × Terminal
  | _, 0 => ([], .returned)
  | attempt, fuel + 1 =>
    if attempt ≤ maxRetries then
      match env attempt with
      | .success => ([.attemptStart attempt, .connectedLog], .returned)
      | .failure msg =>
        if attempt = maxRetries then
          ([.attemptStart attempt, .attemptFailedLog attempt msg, .maxRetriesLog],
            .processExit 1)
        else
          let rest := dbConnectLoop env maxRetries D (attempt + 1) fuel
          (.attemptStart attempt :: .attemptFailedLog attempt msg ::
            .retryingLog D :: .sleep D :: rest.1, rest.2)
    else ([], .returned)

/-- One supervised connection sequence with maximum attempt count `N` and
inter-attempt delay `D` ms: the loop starting at attempt `1`. -/
def dbConnectRun (env : Nat → AttemptOutcome) (N D : Nat) : List Event × Terminal :=
  dbConnectLoop env N D 1 N

/-- `dbConnect` as in the source: `maxRetries = 5`, `retryInterval = 2000`. -/
def dbConnect (env : Nat → AttemptOutcome) : List Event × Terminal :=
  dbConnectRun env 5 2000

/-- Number of attempts the loop makes from attempt `a` with the given fuel
(mirrors the recursion of `dbConnectLoop`). -/
def attemptCount (env : Nat → AttemptOutcome) (maxRetries : Nat) :
    Nat → Nat → Nat
  | _, 0 => 0
  | attempt, fuel + 1 =>
    if attempt ≤ maxRetries then
      match env attempt with
      | .success => 1
      | .failure _ =>
        if attempt = maxRetries then 1
        else attemptCount env maxRetries (attempt + 1) fuel + 1
    else 0

/-- The attempt numbers at which a `mongoose.connect` call was made, in order. -/
def attemptsOf : List Event → List Nat
  | [] => []
  | .attemptStart n :: es => n :: attemptsOf es
  | _ :: es => attemptsOf es

/-- The durations of the awaited `setTimeout` delays, in order. -/
def sleepsOf : List Event → List Nat
  | [] => []
  | .sleep d :: es => d :: sleepsOf es
  | _ :: es => sleepsOf es

/-- The terminal signals in a trace: the success log and the exhaustion log. -/
def terminalSignals : List Event → List Event
  | [] => []
  | .connectedLog :: es => .connectedLog :: terminalSignals es
  | .maxRetriesLog :: es => .maxRetriesLog :: terminalSignals es
  | _ :: es => terminalSignals es

/-- The direct, single-shot MongoDB connection of the `server.js` variants that
do not use `dbConnect` (`mongoose.connect(...).then(log).catch(err => { log;
process.exit(1) })`): one attempt, no retry, no delay. -/
def directConnect (outcome : AttemptOutcome) : List Event × Terminal :=
  match outcome with
  | .success => ([.attemptStart 1, .mongoConnectedLog], .returned)
  | .failure msg => ([.attemptStart 1, .mongoErrorLog msg], .processExit 1)

/-- Result of one fallible step of the `/api/send-whatsapp` handler: either the
awaited promise resolves, or it rejects with an error whose message is `msg`. -/
inductive StepResult where
  | ok
  | err (msg : String)
  deriving DecidableEq

/-- Environment of one `/api/send-whatsapp` request: the outcomes of the three
external calls (`user.save()`, `writeToGoogleSheets`, `client.sendMessage`),
should the handler reach them. -/
structure HandlerEnv where
  saveRes : StepResult
  sheetsRes : StepResult
  sendRes : StepResult
  deriving DecidableEq

/-- Operations the `/api/send-whatsapp` handler could perform.  `checkDbReady`
(consult the connection supervisor's readiness) and `rollbackDbSave` (undo the
persisted record) are possible operations that the source never performs. -/
inductive HAction where
  | checkDbReady
  | dbSave
  | sheetsAppend
  | whatsappSend
  | rollbackDbSave
  deriving DecidableEq

/-- The HTTP response of the handler: status code, the `success` field, and the
`error` field (the error message) when present. -/
structure HttpResponse where
  status : Nat
  success : Bool
  errorMsg : Option String
  deriving DecidableEq

/-- What one `/api/send-whatsapp` request did: the operations attempted in
order, which effects are in place afterwards, and the response sent. -/
structure HandlerOutcome where
  actions : List HAction
  dbSaved : Bool
  sheetsAppended : Bool
  whatsappSent : Bool
  response : HttpResponse
  deriving DecidableEq

/-- The `/api/send-whatsapp` handler, transcribed from `server.js`: inside one
try/catch it awaits `user.save()`, then `writeToGoogleSheets(...)` (which
rethrows its error), then `client.sendMessage(...)`; on success it answers
`200 {success: true}`, and the catch answers `500 {success: false, error:
error.message}`.  A rejection at any step skips the remaining steps; effects
of completed steps stay in place (there is no rollback). -/
def sendWhatsappHandler (e : HandlerEnv) : HandlerOutcome :=
  match e.saveRes with
  | .err m =>
    ⟨[.dbSave], false, false, false, ⟨500, false, some m⟩⟩
  | .ok =>
    match e.sheetsRes with
    | .err m =>
      ⟨[.dbSave, .sheetsAppend], true, false, false, ⟨500, false, some m⟩⟩
    | .ok =>
      match e.sendRes with
      | .err m =>
        ⟨[.dbSave, .sheetsAppend, .whatsappSend], true, true, false,
          ⟨500, false, some m⟩⟩
      | .ok =>
        ⟨[.dbSave, .sheetsAppend, .whatsappSend], true, true, true,
          ⟨200, true, none⟩⟩

/-- Top-level startup actions of the `server.js` variant that uses `dbConnect`.
`invokeDbConnect awaited` records whether the call's promise is awaited before
startup proceeds; `awaitDbReady` (block until the supervisor signals
readiness) is a possible step that the source never performs. -/
inductive StartupStep where
  | registerMiddleware
  | invokeDbConnect (awaited : Bool)
  | awaitDbReady
  | setupWhatsappClient
  | setupSheetsClient
  | registerSendWhatsappRoute
  | registerRobotsRoute
  | registerSitemapRoute
  | listen
  deriving DecidableEq

/-- The startup sequence of the `dbConnect`-using `server.js` variant, in
source order: CORS/JSON middleware, `dbConnect()` (fire-and-forget, not
awaited), WhatsApp client setup, Google Sheets client setup, the
`/api/send-whatsapp` route, the robots.txt route, the sitemap route, and
`app.listen`. -/
def serverStartupSteps : List StartupStep :=
  [.registerMiddleware, .invokeDbConnect false, .setupWhatsappClient,
    .setupSheetsClient, .registerSendWhatsappRoute, .registerRobotsRoute,
    .registerSitemapRoute, .listen]

/-- The attempts the loop makes are the consecutive numbers starting at the
current attempt, as many as `attemptCount` says. -/
theorem attemptsOf_dbConnectLoop (env : Nat → AttemptOutcome) (N D : Nat) :
    ∀ fuel a, attemptsOf (dbConnectLoop env N D a fuel).1 =
      List.range' a (attemptCount env N a fuel) := by
  intro fuel
  induction fuel with
  | zero => intro a; rfl
  | succ f ih =>
    intro a
    by_cases h : a ≤ N
    · cases henv : env a with
      | success => simp [dbConnectLoop, attemptCount, h, henv, attemptsOf]
      | failure msg =>
        by_cases h2 : a = N
        · subst h2; simp [dbConnectLoop, attemptCount, henv, attemptsOf]
        · simp [dbConnectLoop, attemptCount, h, henv, h2, attemptsOf, ih (a + 1),
            List.range'_succ]
    · simp [dbConnectLoop, attemptCount, h, attemptsOf]

/-- With enough fuel to reach attempt `N`, at least one attempt is made. -/
theorem attemptCount_pos (env : Nat → AttemptOutcome) (N : Nat) :
    ∀ fuel a, a ≤ N → N + 1 ≤ a + fuel → 1 ≤ attemptCount env N a fuel := by
  intro fuel
  cases fuel with
  | zero => intro a h1 h2; omega
  | succ f =>
    intro a h1 _
    cases henv : env a with
    | success => simp [attemptCount, h1, henv]
    | failure m =>
      by_cases h2 : a = N
      · subst h2; simp [attemptCount, henv]
      · simp [attemptCount, h1, henv, h2]

/-- The loop makes at most `fuel` attempts. -/
theorem attemptCount_le_fuel (env : Nat → AttemptOutcome) (N : Nat) :
    ∀ fuel a, attemptCount env N a fuel ≤ fuel := by
  intro fuel
  induction fuel with
  | zero => intro a; simp [attemptCount]
  | succ f ih =>
    intro a
    by_cases h : a ≤ N
    · cases henv : env a with
      | success => simp [attemptCount, h, henv]
      | failure m =>
        by_cases h2 : a = N
        · subst h2; simp [attemptCount, henv]
        · have := ih (a + 1)
          simp only [attemptCount, if_pos h, henv, if_neg h2]
          omega
    · simp [attemptCount, h]

/-- The inserted delays are precisely one `D`-ms sleep per attempt except the
last: `attemptCount - 1` sleeps, each of duration `D`. -/
theorem sleepsOf_dbConnectLoop (env : Nat → AttemptOutcome) (N D : Nat) :
    ∀ fuel a, N + 1 ≤ a + fuel →
      sleepsOf (dbConnectLoop env N D a fuel).1 =
        List.replicate (attemptCount env N a fuel - 1) D := by
  intro fuel
  induction fuel with
  | zero => intro a _; rfl
  | succ f ih =>
    intro a hfuel
    by_cases h : a ≤ N
    · cases henv : env a with
      | success => simp [dbConnectLoop, attemptCount, h, henv, sleepsOf]
      | failure m =>
        by_cases h2 : a = N
        · subst h2; simp [dbConnectLoop, attemptCount, henv, sleepsOf]
        · have ha1 : a + 1 ≤ N := by omega
          have hpos : 1 ≤ attemptCount env N (a + 1) f :=
            attemptCount_pos env N f (a + 1) ha1 (by omega)
          obtain ⟨c, hc⟩ : ∃ c, attemptCount env N (a + 1) f = c + 1 :=
            ⟨attemptCount env N (a + 1) f - 1, by omega⟩
          simp [dbConnectLoop, attemptCount, h, henv, h2, sleepsOf,
            ih (a + 1) (by omega), hc, List.replicate_succ]
    · simp [dbConnectLoop, attemptCount, h, sleepsOf]

/-- The loop either returns (the promise resolves) or exits the process with
code 1 — there is no other way out. -/
theorem terminal_dbConnectLoop (env : Nat → AttemptOutcome) (N D : Nat) :
    ∀ fuel a, (dbConnectLoop env N D a fuel).2 = .returned ∨
      (dbConnectLoop env N D a fuel).2 = .processExit 1 := by
  intro fuel
  induction fuel with
  | zero => intro a; left; rfl
  | succ f ih =>
    intro a
    by_cases h : a ≤ N
    · cases henv : env a with
      | success => simp [dbConnectLoop, h, henv]
      | failure m =>
        by_cases h2 : a = N
        · subst h2; simp [dbConnectLoop, henv]
        · simpa [dbConnectLoop, h, henv, h2] using ih (a + 1)
    · simp [dbConnectLoop, h]

/-- The loop calls `process.exit(1)` exactly when there is an attempt to make
(`a ≤ N`) and every attempt from the current one through `N` fails. -/
theorem exit_iff_dbConnectLoop (env : Nat → AttemptOutcome) (N D : Nat) :
    ∀ fuel a, N + 1 ≤ a + fuel →
      ((dbConnectLoop env N D a fuel).2 = .processExit 1 ↔
        (a ≤ N ∧ ∀ i, a ≤ i → i ≤ N → (env i).isFailure = true)) := by
  intro fuel
  induction fuel with
  | zero =>
    intro a hfuel
    simp only [dbConnectLoop]
    constructor
    · intro hcon; exact absurd hcon (by simp)
    · intro ⟨h1, _⟩; omega
  | succ f ih =>
    intro a hfuel
    by_cases h : a ≤ N
    · cases henv : env a with
      | success =>
        simp only [dbConnectLoop, if_pos h, henv]
        constructor
        · intro hcon; exact absurd hcon (by simp)
        · rintro ⟨-, hall⟩
          have := hall a le_rfl h
          rw [henv] at this
          simp [AttemptOutcome.isFailure] at this
      | failure m =>
        by_cases h2 : a = N
        · subst h2
          simp only [dbConnectLoop, if_pos h, henv, if_pos rfl]
          constructor
          · intro _
            refine ⟨le_rfl, fun i hi1 hi2 => ?_⟩
            have hia : i = a := by omega
            subst hia
            rw [henv]; rfl
          · intro _; rfl
        · have hrec := ih (a + 1) (by omega)
          simp only [dbConnectLoop, if_pos h, henv, if_neg h2]
          rw [hrec]
          constructor
          · rintro ⟨h1, hall⟩
            refine ⟨h, fun i hi1 hi2 => ?_⟩
            rcases Nat.eq_or_lt_of_le hi1 with heq | hlt
            · subst heq; rw [henv]; rfl
            · exact hall i hlt hi2
          · rintro ⟨-, hall⟩
            exact ⟨by omega, fun i hi1 hi2 => hall i (by omega) hi2⟩
    · simp only [dbConnectLoop, if_neg h]
      constructor
      · intro hcon; exact absurd hcon (by simp)
      · intro ⟨h1, _⟩; exact absurd h1 h

/-- Every failing attempt the loop makes is logged with its attempt number and
the error's message. -/
theorem failLog_dbConnectLoop (env : Nat → AttemptOutcome) (N D : Nat) :
    ∀ fuel a i m, a ≤ i → i < a + attemptCount env N a fuel →
      env i = .failure m →
      Event.attemptFailedLog i m ∈ (dbConnectLoop env N D a fuel).1 := by
  intro fuel
  induction fuel with
  | zero => intro a i m h1 h2 _; simp [attemptCount] at h2; omega
  | succ f ih =>
    intro a i m h1 h2 henvi
    by_cases h : a ≤ N
    · cases henv : env a with
      | success =>
        rw [attemptCount] at h2
        simp only [if_pos h, henv] at h2
        have hia : i = a := by omega
        subst hia
        rw [henv] at henvi
        exact absurd henvi (by simp)
      | failure m' =>
        by_cases h2' : a = N
        · subst h2'
          rw [attemptCount] at h2
          simp only [le_refl, if_pos, henv, if_pos rfl] at h2
          have hia : i = a := by omega
          subst hia
          rw [henv] at henvi
          injection henvi with hm
          subst hm
          simp [dbConnectLoop, henv]
        · rw [attemptCount] at h2
          simp only [if_pos h, henv, if_neg h2'] at h2
          rcases Nat.eq_or_lt_of_le h1 with heq | hlt
          · subst heq
            rw [henv] at henvi
            injection henvi with hm
            subst hm
            simp [dbConnectLoop, h, henv, h2']
          · have hmem := ih (a + 1) i m (by omega) (by omega) henvi
            simp only [dbConnectLoop, if_pos h, henv, if_neg h2']
            simp only [List.mem_cons]
            right; right; right; right
            exact hmem
    · rw [attemptCount] at h2
      simp only [if_neg h] at h2
      omega

/-- Every attempt the loop makes other than the last one fails. -/
theorem earlyFail_dbConnectLoop (env : Nat → AttemptOutcome) (N : Nat) :
    ∀ fuel a i, a ≤ i → i + 1 < a + attemptCount env N a fuel →
      (env i).isFailure = true := by
  intro fuel
  induction fuel with
  | zero => intro a i h1 h2; simp [attemptCount] at h2; omega
  | succ f ih =>
    intro a i h1 h2
    by_cases h : a ≤ N
    · cases henv : env a with
      | success =>
        rw [attemptCount] at h2
        simp only [if_pos h, henv] at h2
        omega
      | failure m =>
        by_cases h2' : a = N
        · subst h2'
          rw [attemptCount] at h2
          simp only [le_refl, if_pos, henv, if_pos rfl] at h2
          omega
        · rw [attemptCount] at h2
          simp only [if_pos h, henv, if_neg h2'] at h2
          rcases Nat.eq_or_lt_of_le h1 with heq | hlt
          · subst heq; rw [henv]; rfl
          · exact ih (a + 1) i (by omega) (by omega)
    · rw [attemptCount] at h2
      simp only [if_neg h] at h2
      omega

/-- The loop stops because its last attempt succeeded or because the last
attempt was attempt `N` (exhaustion). -/
theorem lastAttempt_dbConnectLoop (env : Nat → AttemptOutcome) (N : Nat) :
    ∀ fuel a, a ≤ N → N + 1 ≤ a + fuel →
      (env (a + attemptCount env N a fuel - 1)).isSuccess = true ∨
        a + attemptCount env N a fuel - 1 = N := by
  intro fuel
  induction fuel with
  | zero => intro a h1 h2; omega
  | succ f ih =>
    intro a h1 hfuel
    cases henv : env a with
    | success =>
      left
      rw [attemptCount]
      simp only [if_pos h1, henv]
      simpa using congrArg AttemptOutcome.isSuccess henv
    | failure m =>
      by_cases h2 : a = N
      · right
        subst h2
        rw [attemptCount]
        simp only [le_refl, if_pos, henv, if_pos rfl]
        omega
      · have hrec := ih (a + 1) (by omega) (by omega)
        rw [attemptCount]
        simp only [if_pos h1, henv, if_neg h2]
        have hpos : 1 ≤ attemptCount env N (a + 1) f :=
          attemptCount_pos env N f (a + 1) (by omega) (by omega)
        have harith : a + (attemptCount env N (a + 1) f + 1) - 1 =
            a + 1 + attemptCount env N (a + 1) f - 1 := by omega
        rw [harith]
        exact hrec

/-- If attempt `k` would succeed, the loop never goes past attempt `k`. -/
theorem attemptCount_le_of_success (env : Nat → AttemptOutcome) (N k : Nat)
    (hk : env k = .success) :
    ∀ fuel a, a ≤ k → attemptCount env N a fuel ≤ k + 1 - a := by
  intro fuel
  induction fuel with
  | zero => intro a h1; simp [attemptCount]
  | succ f ih =>
    intro a h1
    by_cases h : a ≤ N
    · cases henv : env a with
      | success =>
        rw [attemptCount]
        simp only [if_pos h, henv]
        omega
      | failure m =>
        have hak : a ≠ k := by
          intro heq; subst heq; rw [henv] at hk; exact absurd hk (by simp)
        by_cases h2 : a = N
        · subst h2
          rw [attemptCount]
          simp only [le_refl, if_pos, henv, if_pos rfl]
          omega
        · rw [attemptCount]
          simp only [if_pos h, henv, if_neg h2]
          have := ih (a + 1) (by omega)
          omega
    · rw [attemptCount]
      simp only [if_neg h]
      omega

/-- If every attempt from the current one through `N` fails, the loop uses all
remaining attempts: `N + 1 - a` of them. -/
theorem attemptCount_allFail (env : Nat → AttemptOutcome) (N : Nat) :
    ∀ fuel a, a ≤ N → N + 1 ≤ a + fuel →
      (∀ i, a ≤ i → i ≤ N → (env i).isFailure = true) →
      attemptCount env N a fuel = N + 1 - a := by
  intro fuel
  induction fuel with
  | zero => intro a h1 h2 _; omega
  | succ f ih =>
    intro a h1 hfuel hall
    cases henv : env a with
    | success =>
      have := hall a le_rfl h1
      rw [henv] at this
      exact absurd this (by simp [AttemptOutcome.isFailure])
    | failure m =>
      by_cases h2 : a = N
      · subst h2
        rw [attemptCount]
        simp only [le_refl, if_pos, henv, if_pos rfl]
        omega
      · rw [attemptCount]
        simp only [if_pos h1, henv, if_neg h2]
        have := ih (a + 1) (by omega) (by omega)
          (fun i hi1 hi2 => hall i (by omega) hi2)
        omega

/-- The loop emits exactly one terminal signal: the success log when it
returns, the exhaustion log when it exits the process. -/
theorem terminalSignals_dbConnectLoop (env : Nat → AttemptOutcome) (N D : Nat) :
    ∀ fuel a, a ≤ N → N + 1 ≤ a + fuel →
      ((dbConnectLoop env N D a fuel).2 = .returned ∧
        terminalSignals (dbConnectLoop env N D a fuel).1 = [.connectedLog]) ∨
      ((dbConnectLoop env N D a fuel).2 = .processExit 1 ∧
        terminalSignals (dbConnectLoop env N D a fuel).1 = [.maxRetriesLog]) := by
  intro fuel
  induction fuel with
  | zero => intro a h1 h2; omega
  | succ f ih =>
    intro a h1 hfuel
    cases henv : env a with
    | success =>
      left
      constructor <;> simp [dbConnectLoop, h1, henv, terminalSignals]
    | failure m =>
      by_cases h2 : a = N
      · subst h2
        right
        constructor <;> simp [dbConnectLoop, henv, terminalSignals]
      · have hrec := ih (a + 1) (by omega) (by omega)
        rcases hrec with ⟨ht, hs⟩ | ⟨ht, hs⟩
        · left
          constructor <;>
            simp [dbConnectLoop, h1, henv, h2, terminalSignals, ht, hs]
        · right
          constructor <;>
            simp [dbConnectLoop, h1, henv, h2, terminalSignals, ht, hs]

/-- Claim C1: for every configured maximum attempt count `N ≥ 1` (default 5),
if every connection attempt fails, `dbConnect` makes exactly the attempts
`1..N` — no more, no fewer — and then signals exhaustion by exiting the
process with code 1, not by returning a recoverable value. -/
theorem C1_bounded_attempts (env : Nat → AttemptOutcome) (N D : Nat)
    (hN : 1 ≤ N) (hfail : ∀ i, 1 ≤ i → i ≤ N → (env i).isFailure = true) :
    attemptsOf (dbConnectRun env N D).1 = List.range' 1 N ∧
    (dbConnectRun env N D).2 = .processExit 1 := by
  have hcount : attemptCount env N 1 N = N := by
    have := attemptCount_allFail env N N 1 hN (by omega) hfail
    omega
  constructor
  · rw [dbConnectRun, attemptsOf_dbConnectLoop, hcount]
  · rw [dbConnectRun, exit_iff_dbConnectLoop env N D N 1 (by omega)]
    exact ⟨hN, hfail⟩

/-- Claim C1 witness: with the source's configuration (`N = 5`, `D = 2000`)
and every attempt refused, attempts 1–5 are made and the process exits. -/
theorem C1_bounded_attempts_witness :
    attemptsOf (dbConnectRun (fun _ => .failure "ECONNREFUSED") 5 2000).1 =
      List.range' 1 5 ∧
    (dbConnectRun (fun _ => .failure "ECONNREFUSED") 5 2000).2 =
      .processExit 1 :=
  C1_bounded_attempts (fun _ => .failure "ECONNREFUSED") 5 2000 (by decide)
    (fun _ _ _ => rfl)

/-- Claim C2: if attempt `k ≤ N` succeeds, no attempt `k + 1` is made, and the
sequence signals readiness (the async function returns) instead of exiting. -/
theorem C2_early_success (env : Nat → AttemptOutcome) (N D k : Nat)
    (h1 : 1 ≤ k) (h2 : k ≤ N) (hk : env k = .success) :
    (k + 1) ∉ attemptsOf (dbConnectRun env N D).1 ∧
    (dbConnectRun env N D).2 = .returned := by
  constructor
  · rw [dbConnectRun, attemptsOf_dbConnectLoop]
    intro hmem
    rw [List.mem_range'_1] at hmem
    have := attemptCount_le_of_success env N k hk N 1 h1
    omega
  · rcases terminal_dbConnectLoop env N D N 1 with h | h
    · exact h
    · exfalso
      rw [exit_iff_dbConnectLoop env N D N 1 (by omega)] at h
      have := h.2 k h1 h2
      rw [hk] at this
      simp [AttemptOutcome.isFailure] at this

/-- Claim C2 witness: when attempt 1 succeeds under the source configuration,
attempt 2 is never made and the run returns. -/
theorem C2_early_success_witness :
    (2 : Nat) ∉ attemptsOf (dbConnectRun (fun _ => .success) 5 2000).1 ∧
    (dbConnectRun (fun _ => .success) 5 2000).2 = .returned :=
  C2_early_success (fun _ => .success) 5 2000 1 (by decide) (by decide) rfl

/-- Claim C3: every failing attempt that is made is logged with its attempt
number and error message, and the run ends in the fatal process exit exactly
when all `N` attempts fail — intermediate failures are recovered by retrying
and never escalate, and exhaustion is a process exit rather than a returned
or thrown error. -/
theorem C3_failure_semantics (env : Nat → AttemptOutcome) (N D : Nat)
    (hN : 1 ≤ N) :
    (∀ i m, i ∈ attemptsOf (dbConnectRun env N D).1 → env i = .failure m →
      Event.attemptFailedLog i m ∈ (dbConnectRun env N D).1) ∧
    ((dbConnectRun env N D).2 = .processExit 1 ↔
      ∀ i, 1 ≤ i → i ≤ N → (env i).isFailure = true) := by
  constructor
  · intro i m hmem henvi
    rw [dbConnectRun, attemptsOf_dbConnectLoop, List.mem_range'_1] at hmem
    exact failLog_dbConnectLoop env N D N 1 i m hmem.1 hmem.2 henvi
  · rw [dbConnectRun, exit_iff_dbConnectLoop env N D N 1 (by omega)]
    constructor
    · exact fun h => h.2
    · exact fun h => ⟨hN, h⟩

/-- Claim C3 witness: a run whose first attempt fails and second succeeds logs
the first failure with its attempt number and message, and does not exit. -/
theorem C3_failure_semantics_witness :
    Event.attemptFailedLog 1 "ECONNREFUSED" ∈
      (dbConnectRun
        (fun i => if i = 1 then .failure "ECONNREFUSED" else .success)
        5 2000).1 ∧
    ¬((dbConnectRun
        (fun i => if i = 1 then .failure "ECONNREFUSED" else .success)
        5 2000).2 = .processExit 1) := by
  have h := C3_failure_semantics
    (fun i => if i = 1 then .failure "ECONNREFUSED" else .success) 5 2000
    (by decide)
  refine ⟨h.1 1 "ECONNREFUSED" (by decide) (by decide), fun hcon => ?_⟩
  have := (h.2.mp hcon) 2 (by decide) (by decide)
  simp [AttemptOutcome.isFailure] at this

/-- Claim C5: the inter-attempt delays of a run are exactly one fixed `D`-ms
sleep per attempt except the last — constant across all retries (no jitter,
no backoff), and no delay after a success or after the final failure. -/
theorem C5_fixed_delay (env : Nat → AttemptOutcome) (N D : Nat) :
    sleepsOf (dbConnectRun env N D).1 =
      List.replicate ((attemptsOf (dbConnectRun env N D).1).length - 1) D ∧
    ∀ d, d ∈ sleepsOf (dbConnectRun env N D).1 → d = D := by
  have hs : sleepsOf (dbConnectRun env N D).1 =
      List.replicate (attemptCount env N 1 N - 1) D :=
    sleepsOf_dbConnectLoop env N D N 1 (by omega)
  have ha : (attemptsOf (dbConnectRun env N D).1).length =
      attemptCount env N 1 N := by
    rw [dbConnectRun, attemptsOf_dbConnectLoop]
    simp
  constructor
  · rw [hs, ha]
  · intro d hd
    rw [hs] at hd
    exact List.eq_of_mem_replicate hd

/-- Claim C6: the attempts of a run are exactly `1..k` for some `1 ≤ k ≤ N`,
strictly increasing with no gaps or repeats; every attempt before the `k`-th
failed, and the run stopped at `k` because attempt `k` succeeded or because
`k = N` (exhaustion). -/
theorem C6_monotonic_numbering (env : Nat → AttemptOutcome) (N D : Nat)
    (hN : 1 ≤ N) :
    ∃ k, attemptsOf (dbConnectRun env N D).1 = List.range' 1 k ∧
      1 ≤ k ∧ k ≤ N ∧
      (∀ i, 1 ≤ i → i + 1 ≤ k → (env i).isFailure = true) ∧
      ((env k).isSuccess = true ∨ k = N) := by
  refine ⟨attemptCount env N 1 N, ?_, ?_, ?_, ?_, ?_⟩
  · rw [dbConnectRun, attemptsOf_dbConnectLoop]
  · exact attemptCount_pos env N N 1 hN (by omega)
  · have := attemptCount_le_fuel env N N 1
    omega
  · intro i hi1 hi2
    exact earlyFail_dbConnectLoop env N N 1 i hi1 (by omega)
  · have hlast := lastAttempt_dbConnectLoop env N N 1 hN (by omega)
    have hpos := attemptCount_pos env N N 1 hN (by omega)
    have harith : 1 + attemptCount env N 1 N - 1 = attemptCount env N 1 N := by
      omega
    rw [harith] at hlast
    exact hlast

/-- Claim C6 witness: with every attempt failing under the source
configuration, the attempt numbers are exactly `1..k` with `k ≤ 5`. -/
theorem C6_monotonic_numbering_witness :
    ∃ k, attemptsOf (dbConnectRun (fun _ => .failure "timeout") 5 2000).1 =
        List.range' 1 k ∧
      1 ≤ k ∧ k ≤ 5 ∧
      (∀ i, 1 ≤ i → i + 1 ≤ k →
        ((fun _ => AttemptOutcome.failure "timeout") i).isFailure = true) ∧
      (((fun _ => AttemptOutcome.failure "timeout") k).isSuccess = true ∨
        k = 5) :=
  C6_monotonic_numbering (fun _ => .failure "timeout") 5 2000 (by decide)

/-- Claim C7: each run emits exactly one terminal signal, and it matches the
terminal outcome: the success log exactly when the run returns (Connected),
the exhaustion log exactly when the run exits the process (Exhausted) — never
both, never neither. -/
theorem C7_terminal_exclusivity (env : Nat → AttemptOutcome) (N D : Nat)
    (hN : 1 ≤ N) :
    (terminalSignals (dbConnectRun env N D).1).length = 1 ∧
    ((dbConnectRun env N D).2 = .returned ↔
      terminalSignals (dbConnectRun env N D).1 = [.connectedLog]) ∧
    ((dbConnectRun env N D).2 = .processExit 1 ↔
      terminalSignals (dbConnectRun env N D).1 = [.maxRetriesLog]) := by
  have h := terminalSignals_dbConnectLoop env N D N 1 hN (by omega)
  rw [dbConnectRun]
  rcases h with ⟨ht, hs⟩ | ⟨ht, hs⟩
  · refine ⟨by rw [hs]; rfl, ⟨fun _ => hs, fun _ => ht⟩, ?_, ?_⟩
    · intro hcon
      rw [ht] at hcon
      exact absurd hcon (by simp)
    · intro hcon
      rw [hs] at hcon
      exact absurd hcon (by simp)
  · refine ⟨by rw [hs]; rfl, ⟨?_, ?_⟩, ⟨fun _ => hs, fun _ => ht⟩⟩
    · intro hcon
      rw [ht] at hcon
      exact absurd hcon (by simp)
    · intro hcon
      rw [hs] at hcon
      exact absurd hcon (by simp)

/-- Claim C7 witness: a run that succeeds on attempt 1 emits exactly one
terminal signal, namely the success log. -/
theorem C7_terminal_exclusivity_witness :
    (terminalSignals (dbConnectRun (fun _ => .success) 5 2000).1).length = 1 ∧
    ((dbConnectRun (fun _ => .success) 5 2000).2 = .returned ↔
      terminalSignals (dbConnectRun (fun _ => .success) 5 2000).1 =
        [.connectedLog]) ∧
    ((dbConnectRun (fun _ => .success) 5 2000).2 = .processExit 1 ↔
      terminalSignals (dbConnectRun (fun _ => .success) 5 2000).1 =
        [.maxRetriesLog]) :=
  C7_terminal_exclusivity (fun _ => .success) 5 2000 (by decide)

/-- The environment of the spec's concrete scenario: attempts 1–4 are refused
with "ECONNREFUSED", attempt 5 succeeds. -/
def c8Env : Nat → AttemptOutcome :=
  fun i => if i ≤ 4 then .failure "ECONNREFUSED" else .success

/-- Claim C8: in the concrete run with `N = 5`, `D = 2000` where the first 4
attempts fail with "ECONNREFUSED" and the 5th succeeds, attempts 1–5 are
made, each failure is logged with its number, the four inter-attempt delays
total 8000 ms, the run reaches Connected, and no fatal exit is triggered. -/
theorem C8_concrete_scenario :
    attemptsOf (dbConnectRun c8Env 5 2000).1 = [1, 2, 3, 4, 5] ∧
    sleepsOf (dbConnectRun c8Env 5 2000).1 = [2000, 2000, 2000, 2000] ∧
    (sleepsOf (dbConnectRun c8Env 5 2000).1).sum = 8000 ∧
    Event.attemptFailedLog 1 "ECONNREFUSED" ∈ (dbConnectRun c8Env 5 2000).1 ∧
    Event.attemptFailedLog 2 "ECONNREFUSED" ∈ (dbConnectRun c8Env 5 2000).1 ∧
    Event.attemptFailedLog 3 "ECONNREFUSED" ∈ (dbConnectRun c8Env 5 2000).1 ∧
    Event.attemptFailedLog 4 "ECONNREFUSED" ∈ (dbConnectRun c8Env 5 2000).1 ∧
    Event.connectedLog ∈ (dbConnectRun c8Env 5 2000).1 ∧
    Event.maxRetriesLog ∉ (dbConnectRun c8Env 5 2000).1 ∧
    (dbConnectRun c8Env 5 2000).2 = .returned := by
  decide

/-- Claim C9: the `server.js` variants that call `mongoose.connect` directly
make exactly one connection attempt, insert no delay, and a failure of that
single attempt exits the process with code 1, while a success returns. -/
theorem C9_direct_connect_single_shot (m : String) :
    attemptsOf (directConnect (.failure m)).1 = [1] ∧
    sleepsOf (directConnect (.failure m)).1 = [] ∧
    (directConnect (.failure m)).2 = .processExit 1 ∧
    attemptsOf (directConnect .success).1 = [1] ∧
    sleepsOf (directConnect .success).1 = [] ∧
    (directConnect .success).2 = .returned :=
  ⟨rfl, rfl, rfl, rfl, rfl, rfl⟩

/-- Claim C10: the `/api/send-whatsapp` handler attempts the database save,
the spreadsheet append and the WhatsApp send strictly in that order (its
action list is an initial segment of that sequence), never rolls anything
back, and when a later step fails after an earlier one succeeded, the
earlier effects remain in place and the client receives HTTP 500 with
`success: false` and the error message. -/
theorem C10_handler_non_atomic (e : HandlerEnv) :
    ((sendWhatsappHandler e).actions = [.dbSave] ∨
      (sendWhatsappHandler e).actions = [.dbSave, .sheetsAppend] ∨
      (sendWhatsappHandler e).actions =
        [.dbSave, .sheetsAppend, .whatsappSend]) ∧
    HAction.rollbackDbSave ∉ (sendWhatsappHandler e).actions ∧
    (∀ m, e.saveRes = .ok → e.sheetsRes = .err m →
      (sendWhatsappHandler e).dbSaved = true ∧
      (sendWhatsappHandler e).response = ⟨500, false, some m⟩) ∧
    (∀ m, e.saveRes = .ok → e.sheetsRes = .ok → e.sendRes = .err m →
      (sendWhatsappHandler e).dbSaved = true ∧
      (sendWhatsappHandler e).sheetsAppended = true ∧
      (sendWhatsappHandler e).response = ⟨500, false, some m⟩) := by
  obtain ⟨s1, s2, s3⟩ := e
  cases s1 <;> cases s2 <;> cases s3 <;>
    simp [sendWhatsappHandler]

/-- Claim C10 witness: when the save succeeds and the spreadsheet append
fails, the database record stays persisted and the client gets HTTP 500 with
`success: false` and the append's error message. -/
theorem C10_handler_non_atomic_witness :
    (sendWhatsappHandler ⟨.ok, .err "sheets down", .ok⟩).dbSaved = true ∧
    (sendWhatsappHandler ⟨.ok, .err "sheets down", .ok⟩).response =
      ⟨500, false, some "sheets down"⟩ :=
  (C10_handler_non_atomic ⟨.ok, .err "sheets down", .ok⟩).2.2.1
    "sheets down" rfl rfl

/-- Claim C4 counterexample: contrary to the claim, the form-intake endpoint
does not treat the supervisor's readiness signal as a precondition for
accepting writes.  The startup sequence invokes `dbConnect()` without
awaiting it and proceeds to `app.listen` with no wait for readiness, and the
handler's very first operation on any request — here a concrete request
whose external calls all succeed — is the database write itself, with no
readiness check anywhere in its action sequence. -/
theorem C4_counterexample :
    StartupStep.awaitDbReady ∉ serverStartupSteps ∧
    StartupStep.invokeDbConnect true ∉ serverStartupSteps ∧
    StartupStep.invokeDbConnect false ∈ serverStartupSteps ∧
    StartupStep.listen ∈ serverStartupSteps ∧
    (sendWhatsappHandler ⟨.ok, .ok, .ok⟩).actions.head? =
      some HAction.dbSave ∧
    HAction.checkDbReady ∉ (sendWhatsappHandler ⟨.ok, .ok, .ok⟩).actions := by
  decide

/-- Claim C4 as amended: the endpoint does not gate on the supervisor's
readiness.  `dbConnect()` is invoked fire-and-forget (not awaited), the
server registers the route and listens regardless of connection state, and
on every request the handler's first action is the database save, with no
readiness check. -/
theorem C4_no_readiness_gate (e : HandlerEnv) :
    (sendWhatsappHandler e).actions.head? = some HAction.dbSave ∧
    HAction.checkDbReady ∉ (sendWhatsappHandler e).actions ∧
    StartupStep.awaitDbReady ∉ serverStartupSteps ∧
    StartupStep.invokeDbConnect false ∈ serverStartupSteps ∧
    StartupStep.listen ∈ serverStartupSteps := by
  refine ⟨?_, ?_, by decide, by decide, by decide⟩
  · obtain ⟨s1, s2, s3⟩ := e
    cases s1 <;> cases s2 <;> cases s3 <;> rfl
  · obtain ⟨s1, s2, s3⟩ := e
    cases s1 <;> cases s2 <;> cases s3 <;> simp [sendWhatsappHandler]
